import Mathlib

/-!
Verification development for the `swarm` multi-agent conversation orchestrator
(`src/swarm.ts`).  The TypeScript source is shallowly embedded: JSON objects
become association lists over an inductive `Val` type (object spread is list
append with last-entry-wins lookup), the external model-invocation engine is
an oracle (one `Except`-wrapped engine result per loop iteration), fallible
code returns `Except`, and the mutable `Swarm` instance state is threaded
explicitly.
-/

set_option autoImplicit false

namespace SwarmSpec

/-- A JSON-serializable value, as stored in the shared swarm context and in
tool-call arguments. -/
inductive Val where
  | str (s : String)
  | num (n : Int)
  | bool (b : Bool)
  | null
  | arr (elems : List Val)
  | obj (fields : List (String × Val))

/-- A JS object used as an open string-keyed map (the swarm context, tool-call
argument objects, context patches).  Object spread `{...a, ...b}` is modelled
as `a ++ b` together with a last-entry-wins lookup. -/
abbrev Ctx : Type := List (String × Val)

/-- Lookup in a spread-built object: the LAST entry for a key wins, matching
the semantics of JavaScript object spread. -/
def ctxGet : Ctx → String → Option Val
  | [], _ => none
  | (k', v) :: rest, k =>
    match ctxGet rest k with
    | some w => some w
    | none => if k' = k then some v else none

/-- Object spread `{...a, ...b}` (keys of `b` overwrite keys of `a`). -/
def spread (a b : Ctx) : Ctx := a ++ b

/-- `this.context = {...this.context, ...patch}` guarded by a truthiness check:
an absent (`none`) patch leaves the context untouched (src/swarm.ts:198-201). -/
def applyPatch (c : Ctx) (p : Option Ctx) : Ctx :=
  match p with
  | some q => spread c q
  | none => c

/-- The engine's finish reason for one generation call. -/
inductive FinishReason where
  | stop
  | length
  | contentFilter
  | toolCalls
  | error
  | other
  deriving DecidableEq

/-- `['stop', 'length', 'content-filter', 'error'].includes(finishReason)`
(src/swarm.ts:159). -/
def isTerminal : FinishReason → Bool
  | .stop => true
  | .length => true
  | .contentFilter => true
  | .error => true
  | _ => false

/-- One tool call emitted by the engine. -/
structure ToolCall where
  toolCallId : String
  toolName : String
  args : Ctx

/-- One tool-result entry inside a tool-role message.  The three optional
fields are populated only by the synthetic handover result of `streamText`
(src/swarm.ts:438-449); engine-produced results and `generateText`'s synthetic
result (src/swarm.ts:204-209) leave them absent. -/
structure ToolResultPart where
  toolCallId : String
  toolName : String
  result : Val
  handedOverTo : Option (String × String) := none
  args : Option Ctx := none
  agent : Option (String × String) := none

/-- A content part of an assistant message. -/
inductive ContentPart where
  | text (s : String)
  | toolCall (toolCallId : String) (toolName : String) (args : Ctx)

/-- Assistant message content: either a plain string or a list of parts
(`typeof assistantMessage.content !== 'string'`, src/swarm.ts:236). -/
inductive AssistantContent where
  | str (s : String)
  | parts (ps : List ContentPart)

/-- A conversation message (the `SwarmMessage` union, src/swarm.ts:34-37).
The declared TypeScript type carries the optional `sender` only on assistant
messages; at runtime the spread at src/swarm.ts:153-156 also decorates
tool-role messages, so both constructors carry it here. -/
inductive SwarmMessage where
  | user (content : String)
  | assistant (sender : Option String) (content : AssistantContent)
  | tool (sender : Option String) (content : List ToolResultPart)
  | system (content : String)

/-- Tag each engine response message with the active agent's name
(`{...message, sender: this._activeAgent.name}`, src/swarm.ts:153-156). -/
def setSender (name : String) : SwarmMessage → SwarmMessage
  | .assistant _ c => .assistant (some name) c
  | .tool _ c => .tool (some name) c
  | m => m

/-- `messages.filter(m => m.role === 'assistant').length`. -/
def countAssistants (l : List SwarmMessage) : Nat :=
  (l.filter fun m =>
    match m with
    | .assistant _ _ => true
    | _ => false).length

mutual
/-- Modelled from the spec: an agent (external entity consumed by reference,
spec section 3) has a name, an id, an optional per-agent maximum turn count
(`config.maxTurns`) and a mapping of tool name to tool.  The instructions
template, model override and tool-choice policy play no role in any claim and
are omitted; `agent.ts` is not part of the provided source. -/
inductive Agent where
  | mk (name : String) (uuid : String) (maxTurns : Option Nat)
      (tools : List (String × AgentTool))

/-- Modelled from the spec: a tool is polymorphic over two variants (spec
section 3) - function tools have an executor returning a result plus an
optional context patch, handover tools return a target agent plus an optional
context patch.  Parameter schemas are modelled by their list of declared
field names.  Executors may throw (`Except.error`). -/
inductive AgentTool where
  | fn (description : String) (paramKeys : List String)
      (execute : Ctx → Except String (Val × Option Ctx))
  | handover (description : String) (paramKeys : List String)
      (execute : Ctx → Except String (Agent × Option Ctx))
end

def Agent.name : Agent → String
  | .mk n _ _ _ => n

def Agent.uuid : Agent → String
  | .mk _ u _ _ => u

/-- `agent.config.maxTurns`. -/
def Agent.maxTurns : Agent → Option Nat
  | .mk _ _ mt _ => mt

def Agent.tools : Agent → List (String × AgentTool)
  | .mk _ _ _ ts => ts

def AgentTool.description : AgentTool → String
  | .fn d _ _ => d
  | .handover d _ _ => d

def AgentTool.paramKeys : AgentTool → List String
  | .fn _ p _ => p
  | .handover _ p _ => p

/-- `tool.type === 'handover'`. -/
def AgentTool.isHandover : AgentTool → Bool
  | .handover _ _ _ => true
  | _ => false

/-- `this._activeAgent.tools?.[toolName]` (JS object property access on the
agent's tool record). -/
def lookupTool (ag : Agent) (name : String) : Option AgentTool :=
  (Agent.tools ag).lookup name

/-- The result of one call to the external model-invocation engine
(`generateText` / `streamText` of the `ai` package): finish reason, generated
text, response messages (without sender), tool calls and the tool results the
engine already produced for tools that had executors.  The engine itself is
out of scope (spec section 1); a whole invocation is driven by a list of such
results, one per loop iteration, each wrapped in `Except` because the engine
or a function-tool executor running inside it may throw. -/
structure EngineResult where
  finishReason : FinishReason
  text : String
  responseMessages : List SwarmMessage
  toolCalls : List ToolCall
  toolResults : List ToolResultPart

/-- `toolResults.map(result => result.toolCallId)` (src/swarm.ts:166). -/
def resultIds (r : EngineResult) : List String :=
  r.toolResults.map ToolResultPart.toolCallId

/-- `toolCalls.filter(c => !toolResultIds.includes(c.toolCallId))`
(src/swarm.ts:167-169). -/
def unhandledCalls (r : EngineResult) : List ToolCall :=
  r.toolCalls.filter fun c => !((resultIds r).contains c.toolCallId)

/-- `unhandledToolCalls.filter(c => tools?.[c.toolName].type === 'handover')`
(src/swarm.ts:173-175), paired with the unwrapped handover executor that
src/swarm.ts:185-187 looks up for the honored call. -/
def handoverCandidates (ag : Agent) (r : EngineResult) :
    List (ToolCall × (Ctx → Except String (Agent × Option Ctx))) :=
  (unhandledCalls r).filterMap fun c =>
    match lookupTool ag c.toolName with
    | some (.handover _ _ ex) => some (c, ex)
    | _ => none

/-- The property access `tools?.[c.toolName].type` throws a `TypeError` when
the tool record exists but lacks the called name; this detects whether any
unhandled call would hit that. -/
def anyUnknownTool (ag : Agent) (r : EngineResult) : Bool :=
  (unhandledCalls r).any fun c => (lookupTool ag c.toolName).isNone

/-- The argument object passed to the honored handover tool's executor:
`{...handoverCalls[0].args, ...this.context}` (src/swarm.ts:190-193) - the
model-generated arguments spread first, the full current context second, so
context entries overwrite clashing argument keys. -/
def handoverExecArgs (call : ToolCall) (ctx : Ctx) : Ctx :=
  spread call.args ctx

/-- Execute at most the first handover candidate (src/swarm.ts:181-210):
returns the (possibly new) active agent, the (possibly patched) context and
the synthetic tool result when a handover ran.  `mkSynth` builds the synthetic
result from the call, the pre-handover agent and the post-handover agent
(`generateText` and `streamText` differ only in its extra fields). -/
def handoverStep (mkSynth : ToolCall → Agent → Agent → ToolResultPart)
    (ag : Agent) (ctx : Ctx) :
    List (ToolCall × (Ctx → Except String (Agent × Option Ctx))) →
    Except String (Agent × Ctx × Option ToolResultPart)
  | [] => .ok (ag, ctx, none)
  | (c, ex) :: _ =>
    match ex (handoverExecArgs c ctx) with
    | .error e => .error e
    | .ok (newAg, patch) => .ok (newAg, applyPatch ctx patch, some (mkSynth c ag newAg))

/-- `responseMessages.at(-1)?.role === 'tool'` (src/swarm.ts:213). -/
def lastIsTool (resp : List SwarmMessage) : Bool :=
  match resp.getLast? with
  | some (.tool _ _) => true
  | _ => false

/-- Position of `responseMessages.at(toolMessage === undefined ? -1 : -2)`
(src/swarm.ts:216-218); `none` when that `at` returns `undefined`, in which
case the unconditional `typeof assistantMessage.content` at src/swarm.ts:236
throws a `TypeError`. -/
def asstIndex? (resp : List SwarmMessage) : Option Nat :=
  if lastIsTool resp then
    if 2 ≤ resp.length then some (resp.length - 2) else none
  else
    if 1 ≤ resp.length then some (resp.length - 1) else none

/-- `toolMessage.content.push(tr)` on the trailing tool message. -/
def appendToolResult (tr : ToolResultPart) : SwarmMessage → SwarmMessage
  | .tool s trs => .tool s (trs ++ [tr])
  | m => m

/-- Splice the synthetic handover result into the record (src/swarm.ts:221-233):
appended to an existing trailing tool-role message, or pushed as a fresh
tool-role message when none exists. -/
def spliceHandoverResult (resp : List SwarmMessage) (tr : ToolResultPart) :
    List SwarmMessage :=
  if lastIsTool resp then
    match resp.getLast? with
    | some m => resp.dropLast ++ [appendToolResult tr m]
    | none => resp
  else
    resp ++ [SwarmMessage.tool none [tr]]

def spliceOpt (resp : List SwarmMessage) : Option ToolResultPart → List SwarmMessage
  | some tr => spliceHandoverResult resp tr
  | none => resp

/-- `handoverCalls.filter((call, index) => index > 0).map(c => c.toolCallId)`
(src/swarm.ts:237-239): the ids of every handover candidate after the first. -/
def unusedCallIds (hc : List (ToolCall × (Ctx → Except String (Agent × Option Ctx)))) :
    List String :=
  (hc.drop 1).map fun x => x.1.toolCallId

/-- The filter predicate of src/swarm.ts:241-245: drop tool-call parts whose
id is among the discarded handover calls, keep everything else. -/
def keepPart (ids : List String) : ContentPart → Bool
  | .toolCall cid _ _ => !(ids.contains cid)
  | _ => true

/-- `assistantMessage.content = assistantMessage.content.filter(...)`
(src/swarm.ts:236-246): applied only when the content is not a plain string;
non-assistant messages have no `tool-call`-typed parts, so filtering them is
the identity. -/
def pruneUnused (ids : List String) : SwarmMessage → SwarmMessage
  | .assistant s (.parts ps) => .assistant s (.parts (ps.filter (keepPart ids)))
  | m => m

/-- Replace the element at a position (the in-place mutation through the
`assistantMessage` reference). -/
def modifyNth {α : Type} (f : α → α) : Nat → List α → List α
  | _, [] => []
  | 0, x :: xs => f x :: xs
  | n + 1, x :: xs => x :: modifyNth f n xs

/-- Lines 164-246 of src/swarm.ts (resp. 397-489 for `streamText`): find the
unhandled calls, execute at most the first handover candidate, splice the
synthetic result next to the turn's assistant message and prune the tool-call
entries of the remaining handover candidates.  Errors carry the `TypeError`
or executor exception together with the agent/context state at throw time. -/
def processHandoverCore (mkSynth : ToolCall → Agent → Agent → ToolResultPart)
    (ag : Agent) (ctx : Ctx) (resp : List SwarmMessage) (r : EngineResult) :
    Except (String × Agent × Ctx) (Agent × Ctx × List SwarmMessage) :=
  if anyUnknownTool ag r then .error ("TypeError: unknown tool name", ag, ctx)
  else
    match handoverStep mkSynth ag ctx (handoverCandidates ag r) with
    | .error e => .error (e, ag, ctx)
    | .ok (ag2, ctx2, trOpt) =>
      match asstIndex? resp with
      | none => .error ("TypeError: no assistant message", ag2, ctx2)
      | some i =>
        .ok (ag2, ctx2,
          modifyNth (pruneUnused (unusedCallIds (handoverCandidates ag r))) i
            (spliceOpt resp trOpt))

/-- The synthetic handover tool result of `generateText` (src/swarm.ts:204-209). -/
def mkSynthPlain (c : ToolCall) (_prev newAg : Agent) : ToolResultPart :=
  { toolCallId := c.toolCallId
    toolName := c.toolName
    result := Val.str ("Handing over to agent " ++ Agent.name newAg) }

/-- The synthetic handover tool result of `streamText` (src/swarm.ts:438-449),
additionally carrying the incoming agent, the call arguments and the outgoing
agent for the stream event. -/
def mkSynthStream (c : ToolCall) (prev newAg : Agent) : ToolResultPart :=
  { toolCallId := c.toolCallId
    toolName := c.toolName
    result := Val.str ("Handing over to agent " ++ Agent.name newAg)
    handedOverTo := some (Agent.uuid newAg, Agent.name newAg)
    args := some c.args
    agent := some (Agent.uuid prev, Agent.name prev) }

/-- Handover bookkeeping of `Swarm.generateText` (src/swarm.ts:164-246). -/
def processHandover : Agent → Ctx → List SwarmMessage → EngineResult →
    Except (String × Agent × Ctx) (Agent × Ctx × List SwarmMessage) :=
  processHandoverCore mkSynthPlain

/-- Handover bookkeeping of `Swarm.streamText` (src/swarm.ts:397-489). -/
def processHandoverStream : Agent → Ctx → List SwarmMessage → EngineResult →
    Except (String × Agent × Ctx) (Agent × Ctx × List SwarmMessage) :=
  processHandoverCore mkSynthStream

/-- The forced-return-to-root condition (src/swarm.ts:251-255, 494-498):
`initialAgent.config.maxTurns && initialAgent.config.maxTurns ===
assistantMessages.length && responseMessages.filter(assistant).length <
maxTotalSteps` - note the JS truthiness of the first conjunct: a configured
cap of `0` is falsy and never triggers the reset. -/
def forcedReturn (initialAgent : Agent) (r : EngineResult)
    (resp : List SwarmMessage) (maxTotalSteps : Nat) : Bool :=
  match Agent.maxTurns initialAgent with
  | some n =>
    (n != 0) && (n == countAssistants r.responseMessages) &&
      decide (countAssistants resp < maxTotalSteps)
  | none => false

/-- Outcome of one body execution of the do/while turn loop. -/
inductive IterOut where
  | done (ag : Agent) (ctx : Ctx) (resp : List SwarmMessage)
      (fr : FinishReason) (text : String)
  | next (ag : Agent) (ctx : Ctx) (resp : List SwarmMessage)
      (fr : FinishReason) (text : String)
  | threw (ag : Agent) (ctx : Ctx) (e : String)

/-- One iteration of the turn loop (src/swarm.ts:130-258 resp. 356-502):
invoke the engine (oracle), tag and append the response messages, break on a
terminal finish reason, otherwise resolve at most one handover and apply the
forced return to the queen. -/
def iterCore
    (processH : Agent → Ctx → List SwarmMessage → EngineResult →
      Except (String × Agent × Ctx) (Agent × Ctx × List SwarmMessage))
    (queen : Agent) (maxTotalSteps : Nat) (ag : Agent) (ctx : Ctx)
    (resp : List SwarmMessage) (o : Except String EngineResult) : IterOut :=
  match o with
  | .error e => .threw ag ctx e
  | .ok r =>
    let resp1 := resp ++ r.responseMessages.map (setSender (Agent.name ag))
    if isTerminal r.finishReason then
      .done ag ctx resp1 r.finishReason r.text
    else
      match processH ag ctx resp1 r with
      | .error (e, agE, ctxE) => .threw agE ctxE e
      | .ok (ag2, ctx2, resp2) =>
        let ag3 := if forcedReturn ag r resp2 maxTotalSteps then queen else ag2
        .next ag3 ctx2 resp2 r.finishReason r.text

/-- One `generateText` turn-loop iteration. -/
def iterGen : Agent → Nat → Agent → Ctx → List SwarmMessage →
    Except String EngineResult → IterOut :=
  fun queen maxTotalSteps => iterCore processHandover queen maxTotalSteps

/-- One `streamText` turn-loop iteration. -/
def iterStream : Agent → Nat → Agent → Ctx → List SwarmMessage →
    Except String EngineResult → IterOut :=
  fun queen maxTotalSteps => iterCore processHandoverStream queen maxTotalSteps

/-- How the turn loop ended. -/
inductive LoopExit where
  | finished (fr : FinishReason) (text : String)
  | threw (e : String)
  | noOracle

/-- The do/while turn loop (src/swarm.ts:130-261 resp. 356-503): run an
iteration per oracle entry while the accumulated assistant-message count stays
below the effective ceiling.  `noOracle` is the modelling artifact of running
out of oracle entries while the loop would continue. -/
def runLoopCore
    (iter : Agent → Ctx → List SwarmMessage → Except String EngineResult → IterOut)
    (maxTotalSteps : Nat) :
    List (Except String EngineResult) → Agent → Ctx → List SwarmMessage →
    Agent × Ctx × List SwarmMessage × LoopExit
  | [], ag, ctx, resp => (ag, ctx, resp, .noOracle)
  | o :: os, ag, ctx, resp =>
    match iter ag ctx resp o with
    | .threw ag' ctx' e => (ag', ctx', resp, .threw e)
    | .done ag' ctx' resp' fr tx => (ag', ctx', resp', .finished fr tx)
    | .next ag' ctx' resp' fr tx =>
      if countAssistants resp' < maxTotalSteps then
        runLoopCore iter maxTotalSteps os ag' ctx' resp'
      else
        (ag', ctx', resp', .finished fr tx)

/-- The mutable instance state of a `Swarm` (src/swarm.ts:82-103).  `maxTurns`
holds the already-resolved swarm-wide ceiling (`options.maxTurns || 100`,
src/swarm.ts:99). -/
structure Swarm where
  queen : Agent
  activeAgent : Agent
  context : Ctx
  messages : List SwarmMessage
  maxTurns : Nat
  returnToQueen : Bool

/-- Per-invocation options (src/swarm.ts:52-73).  `content` and `messages`
are mutually exclusive in the TypeScript union; the per-step observer
callback plays no role in any claim and is omitted. -/
structure SwarmInvocationOptions where
  contextUpdate : Option Ctx := none
  setAgent : Option Agent := none
  maxTurns : Option Nat := none
  returnToQueen : Option Bool := none
  content : Option String := none
  messages : Option (List SwarmMessage) := none

/-- `Swarm.handleUpdatesAndOverrides` (src/swarm.ts:558-572). -/
def handleUpdatesAndOverrides (sw : Swarm) (o : SwarmInvocationOptions) : Swarm :=
  { sw with
    activeAgent :=
      match o.setAgent with
      | some a => a
      | none => sw.activeAgent
    messages :=
      match o.messages with
      | some ms => ms
      | none => sw.messages
    context := applyPatch sw.context o.contextUpdate }

/-- The `initialMessages` array of src/swarm.ts:118-123 (resp. 287-292): the
stored history, extended by a fresh user message synthesized from `content`
when no replacement message list was supplied.  It feeds only the engine
prompt; `generateText` never appends the synthesized user message to the
stored history. -/
def initialMessagesFor (sw : Swarm) (o : SwarmInvocationOptions) :
    List SwarmMessage :=
  match o.messages with
  | some _ => sw.messages
  | none =>
    sw.messages ++ [SwarmMessage.user
      (match o.content with
       | some c => c
       | none => "")]

/-- The record returned by `Swarm.generateText` (src/swarm.ts:269-275), and
likewise the values the `streamText` promises resolve to (src/swarm.ts:512-530). -/
structure GenReturn where
  finishReason : FinishReason
  activeAgent : Agent
  text : String
  messages : List SwarmMessage
  context : Ctx

/-- Either the invocation returns normally or an exception propagates uncaught
to the caller (for `streamText`: the background loop dies and the result
promises never resolve). -/
inductive GenOutcome where
  | ok (ret : GenReturn)
  | threw (e : String)

/-- `Swarm.generateText` (src/swarm.ts:113-276), driven by an oracle list of
engine results (one per loop iteration).  Returns the post-call instance state
together with the outcome; `none` is the modelling artifact of exhausting the
oracle while the loop would continue. -/
def generateText (sw0 : Swarm) (opts : SwarmInvocationOptions)
    (oracle : List (Except String EngineResult)) : Option (Swarm × GenOutcome) :=
  let sw := handleUpdatesAndOverrides sw0 opts
  let maxTotalSteps :=
    match opts.maxTurns with
    | some n => n
    | none => sw.maxTurns
  match runLoopCore (iterGen sw.queen maxTotalSteps) maxTotalSteps oracle
      sw.activeAgent sw.context [] with
  | (ag, ctx, _, .threw e) =>
    some ({ sw with activeAgent := ag, context := ctx }, .threw e)
  | (_, _, _, .noOracle) => none
  | (ag, ctx, resp, .finished fr tx) =>
    let sw1 := { sw with
      activeAgent := ag
      context := ctx
      messages := sw.messages ++ resp }
    let sw2 := if sw.returnToQueen then { sw1 with activeAgent := sw.queen } else sw1
    some (sw2, .ok
      { finishReason := fr
        activeAgent := sw2.activeAgent
        text := tx
        messages := resp
        context := ctx })

/-- `Swarm.streamText` (src/swarm.ts:282-532), restricted to its state effects
and the scalar results its promises resolve to; the live stream views carry no
claim and are not modelled.  The body duplicates `generateText`'s loop in the
source; the only behavioral difference modelled here is the extended synthetic
handover tool result (`iterStream`). -/
def streamText (sw0 : Swarm) (opts : SwarmInvocationOptions)
    (oracle : List (Except String EngineResult)) : Option (Swarm × GenOutcome) :=
  let sw := handleUpdatesAndOverrides sw0 opts
  let maxTotalSteps :=
    match opts.maxTurns with
    | some n => n
    | none => sw.maxTurns
  match runLoopCore (iterStream sw.queen maxTotalSteps) maxTotalSteps oracle
      sw.activeAgent sw.context [] with
  | (ag, ctx, _, .threw e) =>
    some ({ sw with activeAgent := ag, context := ctx }, .threw e)
  | (_, _, _, .noOracle) => none
  | (ag, ctx, resp, .finished fr tx) =>
    let sw1 := { sw with
      activeAgent := ag
      context := ctx
      messages := sw.messages ++ resp }
    let sw2 := if sw.returnToQueen then { sw1 with activeAgent := sw.queen } else sw1
    some (sw2, .ok
      { finishReason := fr
        activeAgent := sw2.activeAgent
        text := tx
        messages := resp
        context := ctx })

/-- `Swarm.updateContext` (src/swarm.ts:545-551): shallow-merge the patch into
the stored context and return the new snapshot. -/
def updateContext (sw : Swarm) (update : Ctx) : Swarm × Ctx :=
  let c := spread sw.context update
  ({ sw with context := c }, c)

/-- `SWARM_CONTEXT_PROPERTY_NAME` (src/swarm.ts:32). -/
def swarmContextPropertyName : String := "swarmContext"

/-- The `CoreTool` handed to the model-invocation engine by `wrapTools`:
advertised description and parameter schema (field names), plus an optional
wrapped executor taking the call arguments and the current swarm context and
returning the result payload together with the updated swarm context. -/
structure CoreTool where
  description : String
  paramKeys : List String
  execute : Option (Ctx → Ctx → Except String (Val × Ctx))

/-- `Swarm.wrapTools` body for a single tool (src/swarm.ts:588-683):
1. function tools get a wrapper that applies the result's context patch to the
   swarm context and returns only the payload (src/swarm.ts:602-616);
2. a declared `swarmContext` parameter is stripped from the advertised schema
   and re-injected into the argument object at call time (src/swarm.ts:622-654);
3. handover tools end with no executor at all (src/swarm.ts:661-663) - the
   raw-delegation branch of src/swarm.ts:644-650 is reachable only for a
   handover tool, whose executor is discarded right after, so it is modelled
   as an error value. -/
def wrapTool (agentTool : AgentTool) : CoreTool :=
  let functionWrapper : Option (Ctx → Ctx → Except String (Val × Ctx)) :=
    match agentTool with
    | .fn _ _ ex =>
      some fun args swarmCtx =>
        match ex args with
        | .error e => .error e
        | .ok (result, context) => .ok (result, applyPatch swarmCtx context)
    | .handover _ _ _ => none
  let stripped :=
    if (AgentTool.paramKeys agentTool).contains swarmContextPropertyName then
      ((AgentTool.paramKeys agentTool).erase swarmContextPropertyName,
       some fun args swarmCtx =>
         match functionWrapper with
         | some fw =>
           fw (spread args [(swarmContextPropertyName, Val.obj swarmCtx)]) swarmCtx
         | none => .error "handover executor (discarded below)")
    else
      (AgentTool.paramKeys agentTool, functionWrapper)
  let executor :=
    if AgentTool.isHandover agentTool then none else stripped.2
  { description := AgentTool.description agentTool
    paramKeys := stripped.1
    execute := executor }

/-- `Swarm.wrapTools` (src/swarm.ts:581-687) over a present tool record. -/
def wrapTools (tools : List (String × AgentTool)) : List (String × CoreTool) :=
  tools.map fun x => (x.1, wrapTool x.2)

/-! ### Observation helpers used to state the theorems -/

/-- The tool-call ids appearing among an assistant message's content parts. -/
def partsCallIds : List ContentPart → List String
  | [] => []
  | .toolCall cid _ _ :: rest => cid :: partsCallIds rest
  | _ :: rest => partsCallIds rest

/-- All tool-result ids appearing in tool-role messages of a message list. -/
def collectResultIds : List SwarmMessage → List String
  | [] => []
  | .tool _ trs :: rest => trs.map ToolResultPart.toolCallId ++ collectResultIds rest
  | _ :: rest => collectResultIds rest

/-- The messages a turn appends after the engine call, as a function of
whether the engine's batch ended with a tool-role message (`trsOpt`). -/
def turnTail : Option (Option String × List ToolResultPart) → List SwarmMessage
  | some (st, trs) => [SwarmMessage.tool st trs]
  | none => []

/-- The turn's assistant-message parts after handover bookkeeping: the entries
of the discarded extra handover calls are filtered out. -/
def prunedTurnParts
    (hc : List (ToolCall × (Ctx → Except String (Agent × Option Ctx))))
    (parts : List ContentPart) : List ContentPart :=
  parts.filter (keepPart (unusedCallIds hc))

/-- The turn's trailing tool-role message after handover bookkeeping: the
synthetic result is appended to the engine's trailing tool message when one
exists, or forms a fresh tool message otherwise. -/
def turnToolMessageOut (trsOpt : Option (Option String × List ToolResultPart))
    (synth : ToolResultPart) : SwarmMessage :=
  match trsOpt with
  | some (st, trs) => .tool st (trs ++ [synth])
  | none => .tool none [synth]

/-- The accumulated response list after one turn's handover bookkeeping. -/
def turnRespOut (pre : List SwarmMessage) (s : Option String)
    (hc : List (ToolCall × (Ctx → Except String (Agent × Option Ctx))))
    (parts : List ContentPart)
    (trsOpt : Option (Option String × List ToolResultPart))
    (synth : ToolResultPart) : List SwarmMessage :=
  pre ++ [SwarmMessage.assistant s (.parts (prunedTurnParts hc parts))]
    ++ [turnToolMessageOut trsOpt synth]

/-! ### Concrete scenario data -/

/-- A plain worker agent. -/
def wAgentB : Agent := .mk "B" "uuid-b" none []

/-- The handover executor of the queen's transfer tool: hand over to `wAgentB`
with no context patch. -/
def transferToBExec : Ctx → Except String (Agent × Option Ctx) :=
  fun _ => .ok (wAgentB, none)

def wTransferTool : AgentTool :=
  .handover "Transfer the conversation to agent B" ["topic"] transferToBExec

/-- The root ("queen") agent, carrying one handover tool. -/
def wQueenA : Agent := .mk "A" "uuid-a" none [("transferToB", wTransferTool)]

/-- A worker agent with a per-agent turn cap of 1. -/
def wCapAgent : Agent := .mk "C" "uuid-c" (some 1) []

/-- Engine result: plain terminal answer. -/
def wStopR : EngineResult :=
  { finishReason := .stop
    text := "hello"
    responseMessages := [.assistant none (.str "hello")]
    toolCalls := []
    toolResults := [] }

def wHandoverCall : ToolCall := ⟨"call-1", "transferToB", []⟩

/-- Engine result: one unhandled handover call, no text. -/
def wHandoverR : EngineResult :=
  { finishReason := .toolCalls
    text := ""
    responseMessages :=
      [.assistant none (.parts [.toolCall "call-1" "transferToB" []])]
    toolCalls := [wHandoverCall]
    toolResults := [] }

/-- Engine result: terminal answer produced by the post-handover agent. -/
def wDoneR : EngineResult :=
  { finishReason := .stop
    text := "done"
    responseMessages := [.assistant none (.str "done")]
    toolCalls := []
    toolResults := [] }

/-- Engine result: non-terminal, one assistant message, no tool calls (used to
exercise the forced return to the queen on a capped agent). -/
def wCapR : EngineResult :=
  { finishReason := .toolCalls
    text := ""
    responseMessages := [.assistant none (.str "thinking")]
    toolCalls := []
    toolResults := [] }

def wCall1 : ToolCall := ⟨"call-1", "transferToB", []⟩

def wCall2 : ToolCall := ⟨"call-2", "transferToB", []⟩

/-- Engine result: TWO unhandled handover calls in the same turn. -/
def wTwoHandoverR : EngineResult :=
  { finishReason := .toolCalls
    text := ""
    responseMessages :=
      [.assistant none (.parts
        [.toolCall "call-1" "transferToB" [], .toolCall "call-2" "transferToB" []])]
    toolCalls := [wCall1, wCall2]
    toolResults := [] }

/-- A base swarm: queen `wQueenA`, empty history and context, default ceiling,
no post-completion root return. -/
def swBase : Swarm :=
  { queen := wQueenA
    activeAgent := wQueenA
    context := []
    messages := []
    maxTurns := 100
    returnToQueen := false }

/-- The same swarm constructed with the post-completion root-return flag. -/
def swReturning : Swarm := { swBase with returnToQueen := true }

/-- Fresh-content invocation. -/
def optsContent : SwarmInvocationOptions := { content := some "hi" }

/-- Fresh-content invocation additionally setting the per-invocation
post-completion root-return flag. -/
def optsContentReturn : SwarmInvocationOptions :=
  { content := some "hi", returnToQueen := some true }

/-- Oracle: a handover turn followed by a terminal turn. -/
def oracleHB : List (Except String EngineResult) := [.ok wHandoverR, .ok wDoneR]

def runC3 : Option (Swarm × GenOutcome) := generateText swReturning optsContent oracleHB

def runC3noReset : Option (Swarm × GenOutcome) := generateText swBase optsContent oracleHB

def runC3stream : Option (Swarm × GenOutcome) := streamText swReturning optsContent oracleHB

def runC4 : Option (Swarm × GenOutcome) := generateText swBase optsContentReturn oracleHB

def runC5 : Option (Swarm × GenOutcome) := generateText swBase optsContent [.ok wStopR]

def runC9 : Option (Swarm × GenOutcome) := generateText swBase optsContent [.error "boom"]

/-- Stored post-call active agent name of a modelled invocation. -/
def storedAgentName : Option (Swarm × GenOutcome) → String
  | some (sw, _) => Agent.name sw.activeAgent
  | none => "<no result>"

/-- The `activeAgent` of the returned/resolved invocation record. -/
def returnedAgentName : Option (Swarm × GenOutcome) → String
  | some (_, .ok ret) => Agent.name ret.activeAgent
  | _ => "<no result>"

/-- Stored post-call conversation history of a modelled invocation. -/
def storedMessages : Option (Swarm × GenOutcome) → List SwarmMessage
  | some (sw, _) => sw.messages
  | none => []

/-- The swarm state component of a modelled invocation. -/
def resultSwarm (fallback : Swarm) : Option (Swarm × GenOutcome) → Swarm
  | some (sw, _) => sw
  | none => fallback

/-- The response list of a capped-agent `generateText` iteration. -/
def c2Resp : List SwarmMessage := [.assistant (some "C") (.str "thinking")]

/-- The post-iteration agent of a capped-agent `generateText` iteration. -/
def c2EndAgent : Agent :=
  match iterGen wQueenA 10 wCapAgent [] [] (Except.ok wCapR) with
  | .next a _ _ _ _ => a
  | .done a _ _ _ _ => a
  | .threw a _ _ => a

/-- The post-iteration agent of a capped-agent `streamText` iteration. -/
def c2EndAgentStream : Agent :=
  match iterStream wQueenA 10 wCapAgent [] [] (Except.ok wCapR) with
  | .next a _ _ _ _ => a
  | .done a _ _ _ _ => a
  | .threw a _ _ => a

/-- The response list fed to the handover bookkeeping in the single-handover
scenario: the engine's sole (sender-tagged) assistant message. -/
def c6Resp : List SwarmMessage :=
  [.assistant (some "A") (.parts [.toolCall "call-1" "transferToB" []])]

/-- The handover bookkeeping output in the single-handover scenario. -/
def c6OutVal : Agent × Ctx × List SwarmMessage :=
  match processHandover wQueenA [] c6Resp wHandoverR with
  | .ok v => v
  | .error _ => (wQueenA, [], [])

/-- A handover executor that throws. -/
def wFailExec : Ctx → Except String (Agent × Option Ctx) :=
  fun _ => .error "handover failed"

def wFailTool : AgentTool := .handover "Failing handover" [] wFailExec

/-- An agent whose single handover tool throws. -/
def wFailAgent : Agent := .mk "F" "uuid-f" none [("failover", wFailTool)]

/-- A handover call whose model-generated arguments clash with the context on
key `x`. -/
def wCallF : ToolCall := ⟨"call-9", "failover", [("x", Val.num 2), ("y", Val.str "u")]⟩

/-- Context containing key `x` (set to 1, clashing with the call arguments). -/
def wCtx10 : Ctx := [("x", Val.num 1)]

/-- Engine result issuing the clashing handover call. -/
def wR10 : EngineResult :=
  { finishReason := .toolCalls
    text := ""
    responseMessages :=
      [.assistant none (.parts [.toolCall "call-9" "failover"
        [("x", Val.num 2), ("y", Val.str "u")]])]
    toolCalls := [wCallF]
    toolResults := [] }

def wResp10 : List SwarmMessage :=
  [.assistant (some "F") (.parts [.toolCall "call-9" "failover"
    [("x", Val.num 2), ("y", Val.str "u")]])]

/-- Context and patches of the spec's last-writer-wins example. -/
def wCtx8 : Ctx := [("z", Val.num 9)]

def wPatch1 : Ctx := [("a", Val.num 1)]

def wPatch2 : Ctx := [("a", Val.num 2), ("b", Val.num 3)]

/-- A swarm whose context holds a prior unrelated key. -/
def sw8 : Swarm := { swBase with context := wCtx8 }

/-- Placeholder invocation record (used as extractor fallback only). -/
def dummyReturn : GenReturn :=
  { finishReason := .stop
    activeAgent := wQueenA
    text := ""
    messages := []
    context := [] }

/-- The invocation-record component of a modelled invocation. -/
def resultReturn (fallback : GenReturn) : Option (Swarm × GenOutcome) → GenReturn
  | some (_, .ok ret) => ret
  | _ => fallback

/-- The assistant-message content parts of the two-handover turn. -/
def c1Parts : List ContentPart :=
  [.toolCall "call-1" "transferToB" [], .toolCall "call-2" "transferToB" []]

/-- The two handover candidates of the two-handover turn. -/
def c1Candidates :
    List (ToolCall × (Ctx → Except String (Agent × Option Ctx))) :=
  [(wCall1, transferToBExec), (wCall2, transferToBExec)]

/-! ### Helper lemmas -/

theorem ctxGet_append_of_some {b : Ctx} {k : String} {v : Val} (a : Ctx)
    (h : ctxGet b k = some v) : ctxGet (a ++ b) k = some v := by
  induction a with
  | nil => simpa using h
  | cons hd tla ih =>
    obtain ⟨k', v'⟩ := hd
    simp only [List.cons_append, ctxGet]
    rw [show tla.append b = tla ++ b from rfl, ih]

theorem ctxGet_append_of_none {b : Ctx} {k : String} (a : Ctx)
    (h : ctxGet b k = none) : ctxGet (a ++ b) k = ctxGet a k := by
  induction a with
  | nil => simpa using h
  | cons hd tla ih =>
    obtain ⟨k', v'⟩ := hd
    simp only [List.cons_append, ctxGet]
    rw [show tla.append b = tla ++ b from rfl, ih]

/-- C8: applying `updateContext(p1)` then `updateContext(p2)` yields a context
where every key of `p2` has `p2`'s value, every key of `p1` not in `p2` has
`p1`'s value, and every other key keeps its value from the original context. -/
theorem c8_update_context_last_writer_wins (sw : Swarm) (p1 p2 : Ctx) (k : String) :
    (∀ v, ctxGet p2 k = some v →
      ctxGet ((updateContext (updateContext sw p1).1 p2).1).context k = some v) ∧
    (ctxGet p2 k = none → ∀ v, ctxGet p1 k = some v →
      ctxGet ((updateContext (updateContext sw p1).1 p2).1).context k = some v) ∧
    (ctxGet p2 k = none → ctxGet p1 k = none →
      ctxGet ((updateContext (updateContext sw p1).1 p2).1).context k =
        ctxGet sw.context k) := by
  refine ⟨?_, ?_, ?_⟩
  · intro v h
    exact ctxGet_append_of_some (sw.context ++ p1) h
  · intro h2 v h1
    show ctxGet ((sw.context ++ p1) ++ p2) k = some v
    rw [ctxGet_append_of_none (sw.context ++ p1) h2]
    exact ctxGet_append_of_some sw.context h1
  · intro h2 h1
    show ctxGet ((sw.context ++ p1) ++ p2) k = ctxGet sw.context k
    rw [ctxGet_append_of_none (sw.context ++ p1) h2,
      ctxGet_append_of_none sw.context h1]

/-- Witness for C8 at the spec's own example: `merge({a:1})` then
`merge({a:2, b:3})` gives `a = 2`, and the prior unrelated key `z` is intact. -/
theorem c8_update_context_witness :
    ctxGet wPatch2 "a" = some (Val.num 2) ∧
    ctxGet ((updateContext (updateContext sw8 wPatch1).1 wPatch2).1).context "a" =
      some (Val.num 2) ∧
    ctxGet wPatch2 "b" = some (Val.num 3) ∧
    ctxGet ((updateContext (updateContext sw8 wPatch1).1 wPatch2).1).context "b" =
      some (Val.num 3) ∧
    ctxGet wPatch2 "z" = none ∧ ctxGet wPatch1 "z" = none ∧
    ctxGet ((updateContext (updateContext sw8 wPatch1).1 wPatch2).1).context "z" =
      ctxGet sw8.context "z" :=
  ⟨rfl,
   (c8_update_context_last_writer_wins sw8 wPatch1 wPatch2 "a").1 (Val.num 2) rfl,
   rfl,
   (c8_update_context_last_writer_wins sw8 wPatch1 wPatch2 "b").1 (Val.num 3) rfl,
   rfl, rfl,
   (c8_update_context_last_writer_wins sw8 wPatch1 wPatch2 "z").2.2 rfl rfl⟩

/-- C9: when the modelled engine, a function-tool executor running inside it,
or a handover executor throws, `generateText` surfaces the exception and the
stored conversation history is exactly what it was when the turn loop began
(post-overrides): none of the invocation's partial messages is appended. -/
theorem c9_throw_leaves_history_intact (sw : Swarm) (opts : SwarmInvocationOptions)
    (oracle : List (Except String EngineResult)) (sw' : Swarm) (e : String)
    (h : generateText sw opts oracle = some (sw', GenOutcome.threw e)) :
    sw'.messages = (handleUpdatesAndOverrides sw opts).messages := by
  simp only [generateText] at h
  split at h
  · rename_i heq
    rw [Option.some.injEq, Prod.mk.injEq] at h
    obtain ⟨h1, -⟩ := h
    rw [← h1]
  · exact absurd h (by simp)
  · rw [Option.some.injEq, Prod.mk.injEq] at h
    obtain ⟨-, h2⟩ := h
    split at h2 <;> exact absurd h2 (by simp)

/-- Witness for C9: a first-turn engine throw leaves the stored history at its
pre-loop value. -/
theorem c9_throw_witness :
    generateText swBase optsContent [Except.error "boom"] =
      some (resultSwarm swBase runC9, GenOutcome.threw "boom") ∧
    (resultSwarm swBase runC9).messages =
      (handleUpdatesAndOverrides swBase optsContent).messages :=
  ⟨rfl,
   c9_throw_leaves_history_intact swBase optsContent [Except.error "boom"]
    (resultSwarm swBase runC9) "boom" rfl⟩

/-- C4 (code bug): the per-invocation `returnToQueen` option is declared
(src/swarm.ts:56) but never read; `generateText` only consults the
constructor-level flag (src/swarm.ts:267).  With the swarm-level flag false
and the invocation flag true, the stored active agent after a handover run is
the terminal agent B, not the queen A as the option's declared purpose
requires. -/
theorem c4_invocation_flag_ignored :
    optsContentReturn.returnToQueen = some true ∧
    swBase.returnToQueen = false ∧
    storedAgentName runC4 = "B" ∧
    returnedAgentName runC4 = "B" ∧
    Agent.name swBase.queen = "A" :=
  ⟨rfl, rfl, rfl, rfl, rfl⟩

/-- C5 (code bug): in fresh-content mode the synthesized user message enters
only the engine prompt (`initialMessages`, src/swarm.ts:118-123); the
post-loop history update (src/swarm.ts:264) appends only the engine response
messages, so the user message is lost from stored history and the history
grows by one, not by the two messages produced during the invocation. -/
theorem c5_user_message_dropped :
    storedMessages runC5 =
      [SwarmMessage.assistant (some "A") (AssistantContent.str "hello")] ∧
    initialMessagesFor (handleUpdatesAndOverrides swBase optsContent) optsContent =
      [SwarmMessage.user "hi"] ∧
    (storedMessages runC5).length ≠ swBase.messages.length + 2 :=
  ⟨rfl, rfl, by decide⟩

/-- C3 counterexample: with the root-return flag set, a run whose turn loop
terminates with agent B active (shown by the flag-less run over the same
oracle, which reports and stores B) reports agent A - the reset happens
before the return value is built (src/swarm.ts:267 precedes 269-275), so the
caller is NOT told the actual terminal agent. -/
theorem c3_reported_agent_counterexample :
    swReturning.returnToQueen = true ∧
    returnedAgentName runC3 = "A" ∧
    storedAgentName runC3 = "A" ∧
    returnedAgentName runC3stream = "A" ∧
    storedAgentName runC3stream = "A" ∧
    returnedAgentName runC3noReset = "B" ∧
    storedAgentName runC3noReset = "B" ∧
    Agent.name swReturning.queen = "A" ∧
    ("A" : String) ≠ "B" :=
  ⟨rfl, rfl, rfl, rfl, rfl, rfl, rfl, rfl, by decide⟩

/-- C3 (amended): when the swarm-level root-return flag is set, the stored
active agent is reset to the queen BEFORE the invocation result is finalized,
so both the `activeAgent` that `generateText` returns (and that `streamText`
resolves) and the stored active agent are the queen - the caller is told the
root, not the terminal agent. -/
theorem c3_root_reset_visible_in_return (sw : Swarm)
    (opts : SwarmInvocationOptions) (oracle : List (Except String EngineResult))
    (h : sw.returnToQueen = true) :
    (∀ sw' ret, generateText sw opts oracle = some (sw', GenOutcome.ok ret) →
      ret.activeAgent = sw.queen ∧ sw'.activeAgent = sw.queen) ∧
    (∀ sw' ret, streamText sw opts oracle = some (sw', GenOutcome.ok ret) →
      ret.activeAgent = sw.queen ∧ sw'.activeAgent = sw.queen) := by
  have hflag : (handleUpdatesAndOverrides sw opts).returnToQueen = true := h
  constructor
  · intro sw' ret hg
    simp only [generateText, hflag, if_true] at hg
    split at hg
    · exact absurd hg (by simp)
    · exact absurd hg (by simp)
    · rw [Option.some.injEq, Prod.mk.injEq] at hg
      obtain ⟨h1, h2⟩ := hg
      rw [GenOutcome.ok.injEq] at h2
      constructor
      · rw [← h2]; rfl
      · rw [← h1]; rfl
  · intro sw' ret hg
    simp only [streamText, hflag, if_true] at hg
    split at hg
    · exact absurd hg (by simp)
    · exact absurd hg (by simp)
    · rw [Option.some.injEq, Prod.mk.injEq] at hg
      obtain ⟨h1, h2⟩ := hg
      rw [GenOutcome.ok.injEq] at h2
      constructor
      · rw [← h2]; rfl
      · rw [← h1]; rfl

/-- Witness for the amended C3 at the concrete handover run. -/
theorem c3_root_reset_witness :
    swReturning.returnToQueen = true ∧
    generateText swReturning optsContent oracleHB =
      some (resultSwarm swBase runC3, GenOutcome.ok (resultReturn dummyReturn runC3)) ∧
    (resultReturn dummyReturn runC3).activeAgent = swReturning.queen ∧
    (resultSwarm swBase runC3).activeAgent = swReturning.queen :=
  ⟨rfl, rfl,
   ((c3_root_reset_visible_in_return swReturning optsContent oracleHB rfl).1
     (resultSwarm swBase runC3) (resultReturn dummyReturn runC3) rfl).1,
   ((c3_root_reset_visible_in_return swReturning optsContent oracleHB rfl).1
     (resultSwarm swBase runC3) (resultReturn dummyReturn runC3) rfl).2⟩

/-- The forced return to the root applies to one loop iteration regardless of
which handover bookkeeping runs: when the starting agent's configured cap is
nonzero and equals the turn's assistant-message count, and the accumulated
count is still below the ceiling, a normally completed iteration ends on the
queen. -/
theorem iterCore_forced_return
    (processH : Agent → Ctx → List SwarmMessage → EngineResult →
      Except (String × Agent × Ctx) (Agent × Ctx × List SwarmMessage))
    (queen : Agent) (maxSteps : Nat) (ag : Agent) (ctx : Ctx)
    (resp : List SwarmMessage) (r : EngineResult) (n : Nat)
    (hm : Agent.maxTurns ag = some n) (hn : n ≠ 0)
    (hcnt : countAssistants r.responseMessages = n) :
    ∀ ag' ctx' resp' fr tx,
      iterCore processH queen maxSteps ag ctx resp (Except.ok r) =
        IterOut.next ag' ctx' resp' fr tx →
      countAssistants resp' < maxSteps → ag' = queen := by
  intro ag' ctx' resp' fr tx hi hlt
  simp only [iterCore] at hi
  by_cases ht : isTerminal r.finishReason = true
  · rw [if_pos ht] at hi
    exact absurd hi (by simp)
  · rw [if_neg ht] at hi
    cases hPH : processH ag ctx
        (resp ++ List.map (setSender (Agent.name ag)) r.responseMessages) r with
    | error err =>
      obtain ⟨e, agE, ctxE⟩ := err
      rw [hPH] at hi
      exact absurd hi (by simp)
    | ok v =>
      obtain ⟨ag2, ctx2, resp2⟩ := v
      rw [hPH] at hi
      rw [IterOut.next.injEq] at hi
      obtain ⟨h1, -, h3, -, -⟩ := hi
      subst h3
      rw [← h1]
      have hb : forcedReturn ag r resp2 maxSteps = true := by
        simp only [forcedReturn, hm, hcnt]
        simp [hn, hlt]
      rw [hb]
      simp

/-- C2: for a loop iteration of `generateText` or `streamText` that completes
normally, if the starting agent's configured turn cap (a nonzero value, per
the JS truthiness check of src/swarm.ts:252) equals the count of assistant
messages the engine just produced and the accumulated assistant count is
still below the effective ceiling, the agent at the end of the iteration is
the queen, whatever any handover selected. -/
theorem c2_forced_return_to_root (queen : Agent) (maxSteps : Nat) (ag : Agent)
    (ctx : Ctx) (resp : List SwarmMessage) (r : EngineResult) (n : Nat)
    (hm : Agent.maxTurns ag = some n) (hn : n ≠ 0)
    (hcnt : countAssistants r.responseMessages = n) :
    (∀ ag' ctx' resp' fr tx,
      iterGen queen maxSteps ag ctx resp (Except.ok r) =
        IterOut.next ag' ctx' resp' fr tx →
      countAssistants resp' < maxSteps → ag' = queen) ∧
    (∀ ag' ctx' resp' fr tx,
      iterStream queen maxSteps ag ctx resp (Except.ok r) =
        IterOut.next ag' ctx' resp' fr tx →
      countAssistants resp' < maxSteps → ag' = queen) :=
  ⟨iterCore_forced_return processHandover queen maxSteps ag ctx resp r n hm hn hcnt,
   iterCore_forced_return processHandoverStream queen maxSteps ag ctx resp r n hm hn hcnt⟩

/-- Witness for C2: an agent capped at 1 turn produces exactly 1 assistant
message below the ceiling of 10; both iteration variants end on the queen,
even though no handover was requested. -/
theorem c2_forced_return_witness :
    Agent.maxTurns wCapAgent = some 1 ∧
    countAssistants wCapR.responseMessages = 1 ∧
    iterGen wQueenA 10 wCapAgent [] [] (Except.ok wCapR) =
      IterOut.next c2EndAgent [] c2Resp FinishReason.toolCalls "" ∧
    countAssistants c2Resp < 10 ∧
    c2EndAgent = wQueenA ∧
    c2EndAgentStream = wQueenA :=
  ⟨rfl, rfl, rfl, by decide,
   (c2_forced_return_to_root wQueenA 10 wCapAgent [] [] wCapR 1 rfl
      (by decide) rfl).1 c2EndAgent [] c2Resp FinishReason.toolCalls "" rfl (by decide),
   (c2_forced_return_to_root wQueenA 10 wCapAgent [] [] wCapR 1 rfl
      (by decide) rfl).2 c2EndAgentStream [] c2Resp FinishReason.toolCalls "" rfl (by decide)⟩

/-- When a handover candidate heads the list, a successful run of the
handover bookkeeping adopts the agent the executor returned and, absent a
context patch, leaves the context untouched - for either variant's synthetic
result shape. -/
theorem processHandoverCore_adopts_result
    (mkSynth : ToolCall → Agent → Agent → ToolResultPart)
    (ag : Agent) (ctx : Ctx) (resp : List SwarmMessage) (r : EngineResult)
    (c0 : ToolCall) (e0 : Ctx → Except String (Agent × Option Ctx))
    (tl : List (ToolCall × (Ctx → Except String (Agent × Option Ctx))))
    (newAg : Agent) (patch : Option Ctx)
    (hcand : handoverCandidates ag r = (c0, e0) :: tl)
    (hexec : e0 (handoverExecArgs c0 ctx) = Except.ok (newAg, patch)) :
    ∀ out, processHandoverCore mkSynth ag ctx resp r = Except.ok out →
      out.1 = newAg ∧ (patch = none → out.2.1 = ctx) := by
  intro out h
  simp only [processHandoverCore] at h
  split at h
  · exact absurd h (by simp)
  · rw [hcand] at h
    simp only [handoverStep, hexec] at h
    split at h
    · exact absurd h (by simp)
    · rw [Except.ok.injEq] at h
      rw [← h]
      exact ⟨rfl, fun hp => by rw [hp]; rfl⟩

/-- C6: when a handover tool call is executed during a turn (of either
`generateText` or `streamText`), the active agent becomes the agent the
handover result supplied, unconditionally; and when the result carries no
context patch, the context after the handover equals the context before it. -/
theorem c6_handover_result_applied
    (ag : Agent) (ctx : Ctx) (resp : List SwarmMessage) (r : EngineResult)
    (c0 : ToolCall) (e0 : Ctx → Except String (Agent × Option Ctx))
    (tl : List (ToolCall × (Ctx → Except String (Agent × Option Ctx))))
    (newAg : Agent) (patch : Option Ctx)
    (hcand : handoverCandidates ag r = (c0, e0) :: tl)
    (hexec : e0 (handoverExecArgs c0 ctx) = Except.ok (newAg, patch)) :
    (∀ out, processHandover ag ctx resp r = Except.ok out →
      out.1 = newAg ∧ (patch = none → out.2.1 = ctx)) ∧
    (∀ out, processHandoverStream ag ctx resp r = Except.ok out →
      out.1 = newAg ∧ (patch = none → out.2.1 = ctx)) :=
  ⟨processHandoverCore_adopts_result mkSynthPlain ag ctx resp r c0 e0 tl newAg
    patch hcand hexec,
   processHandoverCore_adopts_result mkSynthStream ag ctx resp r c0 e0 tl newAg
    patch hcand hexec⟩

/-- Witness for C6 at the single-handover scenario: the agent becomes B and
the (empty) context is unchanged. -/
theorem c6_handover_witness :
    handoverCandidates wQueenA wHandoverR = [(wHandoverCall, transferToBExec)] ∧
    transferToBExec (handoverExecArgs wHandoverCall []) = Except.ok (wAgentB, none) ∧
    processHandover wQueenA [] c6Resp wHandoverR = Except.ok c6OutVal ∧
    c6OutVal.1 = wAgentB ∧ c6OutVal.2.1 = [] :=
  ⟨rfl, rfl, rfl,
   ((c6_handover_result_applied wQueenA [] c6Resp wHandoverR wHandoverCall
      transferToBExec [] wAgentB none rfl rfl).1 c6OutVal rfl).1,
   ((c6_handover_result_applied wQueenA [] c6Resp wHandoverR wHandoverCall
      transferToBExec [] wAgentB none rfl rfl).1 c6OutVal rfl).2 rfl⟩

/-- C10: the honored handover executor is invoked exactly at
`handoverExecArgs call ctx = {...call.args, ...context}` (its exception
surfaces verbatim from the bookkeeping), and on that argument object a key
present in the context carries the context's value - overriding any
model-generated value for the same key - while keys present only in the call
arguments keep the model-generated value. -/
theorem c10_context_overwrites_call_args
    (ag : Agent) (ctx : Ctx) (resp : List SwarmMessage) (r : EngineResult)
    (c0 : ToolCall) (e0 : Ctx → Except String (Agent × Option Ctx))
    (tl : List (ToolCall × (Ctx → Except String (Agent × Option Ctx))))
    (hcand : handoverCandidates ag r = (c0, e0) :: tl)
    (hno : anyUnknownTool ag r = false) :
    (∀ msg, e0 (handoverExecArgs c0 ctx) = Except.error msg →
      processHandover ag ctx resp r = Except.error (msg, ag, ctx)) ∧
    (∀ k v, ctxGet ctx k = some v →
      ctxGet (handoverExecArgs c0 ctx) k = some v) ∧
    (∀ k v, ctxGet ctx k = none → ctxGet c0.args k = some v →
      ctxGet (handoverExecArgs c0 ctx) k = some v) := by
  refine ⟨?_, ?_, ?_⟩
  · intro msg hexec
    simp only [processHandover, processHandoverCore, hno, Bool.false_eq_true,
      if_false, hcand]
    simp only [handoverStep, hexec]
  · intro k v h
    exact ctxGet_append_of_some c0.args h
  · intro k v hnone hsome
    show ctxGet (c0.args ++ ctx) k = some v
    rw [ctxGet_append_of_none c0.args hnone]
    exact hsome

/-- Witness for C10: context key `x = 1` overrides the model-generated
`x = 2`, key `y` present only in the call arguments survives, and the failing
executor's exception surfaces from the bookkeeping. -/
theorem c10_context_overwrites_witness :
    handoverCandidates wFailAgent wR10 = [(wCallF, wFailExec)] ∧
    anyUnknownTool wFailAgent wR10 = false ∧
    ctxGet wCtx10 "x" = some (Val.num 1) ∧
    ctxGet wCallF.args "x" = some (Val.num 2) ∧
    ctxGet (handoverExecArgs wCallF wCtx10) "x" = some (Val.num 1) ∧
    ctxGet wCtx10 "y" = none ∧
    ctxGet wCallF.args "y" = some (Val.str "u") ∧
    ctxGet (handoverExecArgs wCallF wCtx10) "y" = some (Val.str "u") ∧
    processHandover wFailAgent wCtx10 wResp10 wR10 =
      Except.error ("handover failed", wFailAgent, wCtx10) :=
  ⟨rfl, rfl, rfl, rfl,
   (c10_context_overwrites_call_args wFailAgent wCtx10 wResp10 wR10 wCallF
      wFailExec [] rfl rfl).2.1 "x" (Val.num 1) rfl,
   rfl, rfl,
   (c10_context_overwrites_call_args wFailAgent wCtx10 wResp10 wR10 wCallF
      wFailExec [] rfl rfl).2.2 "y" (Val.str "u") rfl rfl,
   (c10_context_overwrites_call_args wFailAgent wCtx10 wResp10 wR10 wCallF
      wFailExec [] rfl rfl).1 "handover failed" rfl⟩

/-- C7: a handover tool in an agent's tool set is wrapped for the engine with
its description and its parameter schema (the internal `swarmContext` field
stripped when declared) but with NO execute function, so its invocation is
returned unhandled for the orchestrator to intercept. -/
theorem c7_handover_wrapped_without_executor
    (tools : List (String × AgentTool)) (n d : String) (pk : List String)
    (ex : Ctx → Except String (Agent × Option Ctx))
    (h : (n, AgentTool.handover d pk ex) ∈ tools) :
    (n, wrapTool (AgentTool.handover d pk ex)) ∈ wrapTools tools ∧
    wrapTool (AgentTool.handover d pk ex) =
      { description := d
        paramKeys :=
          if pk.contains swarmContextPropertyName then
            pk.erase swarmContextPropertyName
          else pk
        execute := none } := by
  constructor
  · exact List.mem_map.mpr ⟨(n, AgentTool.handover d pk ex), h, rfl⟩
  · simp only [wrapTool, AgentTool.paramKeys, AgentTool.description,
      AgentTool.isHandover, if_true]
    split <;> rfl

/-- Witness for C7 at the queen's transfer tool. -/
theorem c7_handover_wrapped_witness :
    ("transferToB", AgentTool.handover "Transfer the conversation to agent B"
      ["topic"] transferToBExec) ∈ Agent.tools wQueenA ∧
    ("transferToB", wrapTool (AgentTool.handover
      "Transfer the conversation to agent B" ["topic"] transferToBExec)) ∈
      wrapTools (Agent.tools wQueenA) ∧
    (wrapTool (AgentTool.handover "Transfer the conversation to agent B"
      ["topic"] transferToBExec)).execute = none ∧
    (wrapTool (AgentTool.handover "Transfer the conversation to agent B"
      ["topic"] transferToBExec)).description =
      "Transfer the conversation to agent B" := by
  have hmem : ("transferToB", AgentTool.handover
      "Transfer the conversation to agent B" ["topic"] transferToBExec) ∈
      Agent.tools wQueenA := List.mem_singleton.mpr rfl
  have h := c7_handover_wrapped_without_executor (Agent.tools wQueenA)
    "transferToB" "Transfer the conversation to agent B" ["topic"]
    transferToBExec hmem
  exact ⟨hmem, h.1, by rw [h.2], by rw [h.2]⟩

theorem mem_partsCallIds_filter {ids : List String} {ps : List ContentPart}
    {cid : String} :
    cid ∈ partsCallIds (ps.filter (keepPart ids)) ↔
      cid ∈ partsCallIds ps ∧ cid ∉ ids := by
  induction ps with
  | nil => simp [partsCallIds]
  | cons p rest ih =>
    cases p with
    | text t =>
      rw [show (ContentPart.text t :: rest).filter (keepPart ids) =
        ContentPart.text t :: rest.filter (keepPart ids) from rfl]
      rw [show partsCallIds (ContentPart.text t :: rest.filter (keepPart ids)) =
        partsCallIds (rest.filter (keepPart ids)) from rfl]
      rw [show partsCallIds (ContentPart.text t :: rest) = partsCallIds rest from rfl]
      exact ih
    | toolCall c nm a =>
      by_cases hc : c ∈ ids
      · have hkeep : keepPart ids (ContentPart.toolCall c nm a) = false := by
          show (!(List.elem c ids)) = false
          rw [List.elem_iff.mpr hc]
          rfl
        rw [List.filter_cons, hkeep]
        simp only [Bool.false_eq_true, if_false]
        rw [ih]
        rw [show partsCallIds (ContentPart.toolCall c nm a :: rest) =
          c :: partsCallIds rest from rfl]
        constructor
        · rintro ⟨h1, h2⟩
          exact ⟨List.mem_cons_of_mem _ h1, h2⟩
        · rintro ⟨h1, h2⟩
          rcases List.mem_cons.mp h1 with h1 | h1
          · exact absurd (h1 ▸ hc) h2
          · exact ⟨h1, h2⟩
      · have hkeep : keepPart ids (ContentPart.toolCall c nm a) = true := by
          show (!(List.elem c ids)) = true
          cases hb : List.elem c ids with
          | false => rfl
          | true => exact absurd (List.elem_iff.mp hb) hc
        rw [List.filter_cons, hkeep]
        simp only [if_true]
        rw [show partsCallIds (ContentPart.toolCall c nm a ::
          rest.filter (keepPart ids)) =
          c :: partsCallIds (rest.filter (keepPart ids)) from rfl]
        rw [show partsCallIds (ContentPart.toolCall c nm a :: rest) =
          c :: partsCallIds rest from rfl]
        rw [List.mem_cons, List.mem_cons, ih]
        constructor
        · rintro (h1 | ⟨h1, h2⟩)
          · exact ⟨Or.inl h1, h1 ▸ hc⟩
          · exact ⟨Or.inr h1, h2⟩
        · rintro ⟨h1 | h1, h2⟩
          · exact Or.inl h1
          · exact Or.inr ⟨h1, h2⟩

theorem collectResultIds_append (a b : List SwarmMessage) :
    collectResultIds (a ++ b) = collectResultIds a ++ collectResultIds b := by
  induction a with
  | nil => rfl
  | cons m rest ih =>
    cases m with
    | tool st trs =>
      rw [List.cons_append]
      rw [show collectResultIds (SwarmMessage.tool st trs :: (rest ++ b)) =
        trs.map ToolResultPart.toolCallId ++ collectResultIds (rest ++ b) from rfl]
      rw [show collectResultIds (SwarmMessage.tool st trs :: rest) =
        trs.map ToolResultPart.toolCallId ++ collectResultIds rest from rfl]
      rw [ih, List.append_assoc]
    | user c =>
      rw [List.cons_append]
      exact ih
    | assistant s c =>
      rw [List.cons_append]
      exact ih
    | system c =>
      rw [List.cons_append]
      exact ih

theorem modifyNth_append {α : Type} (f : α → α) (pre : List α) (x : α)
    (rest : List α) :
    modifyNth f pre.length (pre ++ x :: rest) = pre ++ f x :: rest := by
  induction pre with
  | nil => rfl
  | cons y ys ih =>
    rw [List.cons_append, List.length_cons]
    rw [show modifyNth f (ys.length + 1) (y :: (ys ++ x :: rest)) =
      y :: modifyNth f ys.length (ys ++ x :: rest) from rfl]
    rw [ih, List.cons_append]

theorem mem_unhandledCalls {r : EngineResult} {c : ToolCall} :
    c ∈ unhandledCalls r ↔ c ∈ r.toolCalls ∧ c.toolCallId ∉ resultIds r := by
  rw [unhandledCalls, List.mem_filter]
  constructor
  · rintro ⟨h1, h2⟩
    refine ⟨h1, fun hmem => ?_⟩
    have h2' : (!(List.elem c.toolCallId (resultIds r))) = true := h2
    rw [List.elem_iff.mpr hmem] at h2'
    exact absurd h2' (by simp)
  · rintro ⟨h1, h2⟩
    refine ⟨h1, ?_⟩
    show (!(List.elem c.toolCallId (resultIds r))) = true
    cases hb : List.elem c.toolCallId (resultIds r) with
    | false => rfl
    | true => exact absurd (List.elem_iff.mp hb) h2

theorem asstIndex?_no_tool (pre : List SwarmMessage) (s : Option String)
    (c : AssistantContent) :
    asstIndex? (pre ++ [SwarmMessage.assistant s c]) = some pre.length := by
  have hlast : lastIsTool (pre ++ [SwarmMessage.assistant s c]) = false := by
    simp [lastIsTool, List.getLast?_concat]
  rw [asstIndex?, hlast]
  simp

theorem asstIndex?_with_tool (pre : List SwarmMessage) (s : Option String)
    (c : AssistantContent) (st : Option String) (trs : List ToolResultPart) :
    asstIndex? (pre ++ [SwarmMessage.assistant s c, SwarmMessage.tool st trs]) =
      some pre.length := by
  have hshape : pre ++ [SwarmMessage.assistant s c, SwarmMessage.tool st trs] =
      (pre ++ [SwarmMessage.assistant s c]) ++ [SwarmMessage.tool st trs] := by
    simp
  have hlast : lastIsTool (pre ++ [SwarmMessage.assistant s c,
      SwarmMessage.tool st trs]) = true := by
    rw [hshape]
    simp [lastIsTool, List.getLast?_concat]
  rw [asstIndex?, hlast]
  simp

theorem splice_no_tool (pre : List SwarmMessage) (s : Option String)
    (c : AssistantContent) (tr : ToolResultPart) :
    spliceHandoverResult (pre ++ [SwarmMessage.assistant s c]) tr =
      pre ++ [SwarmMessage.assistant s c, SwarmMessage.tool none [tr]] := by
  have hlast : lastIsTool (pre ++ [SwarmMessage.assistant s c]) = false := by
    simp [lastIsTool, List.getLast?_concat]
  rw [spliceHandoverResult, hlast]
  simp

theorem splice_with_tool (pre : List SwarmMessage) (s : Option String)
    (c : AssistantContent) (st : Option String) (trs : List ToolResultPart)
    (tr : ToolResultPart) :
    spliceHandoverResult
        (pre ++ [SwarmMessage.assistant s c, SwarmMessage.tool st trs]) tr =
      pre ++ [SwarmMessage.assistant s c, SwarmMessage.tool st (trs ++ [tr])] := by
  have hshape : pre ++ [SwarmMessage.assistant s c, SwarmMessage.tool st trs] =
      (pre ++ [SwarmMessage.assistant s c]) ++ [SwarmMessage.tool st trs] := by
    simp
  have hlast : lastIsTool (pre ++ [SwarmMessage.assistant s c,
      SwarmMessage.tool st trs]) = true := by
    rw [hshape]
    simp [lastIsTool, List.getLast?_concat]
  rw [spliceHandoverResult, hlast]
  simp only [if_true, hshape, List.getLast?_concat, List.dropLast_concat]
  rw [show appendToolResult tr (SwarmMessage.tool st trs) =
    SwarmMessage.tool st (trs ++ [tr]) from rfl]
  simp

/-- C1: in a `generateText` turn whose engine result left handover-typed tool
calls unhandled (and, per `wrapTools`, every unhandled call names a
handover-typed tool), exactly the first handover candidate in emission order
is executed - the bookkeeping's outcome is fully determined by that call's
executor applied at `handoverExecArgs` - and afterwards (a) the turn's record
is exactly: the assistant message with the extra handover-call entries pruned,
followed by the tool message carrying the synthesized result for the first
call; (b) every tool-call id remaining in the assistant message has a
corresponding tool result (the first handover call's id being answered by the
synthesized result); and (c) no discarded handover call's entry survives in
the assistant message's content. -/
theorem c1_first_handover_honored
    (ag : Agent) (ctx : Ctx) (pre : List SwarmMessage) (s : Option String)
    (parts : List ContentPart)
    (trsOpt : Option (Option String × List ToolResultPart))
    (r : EngineResult) (c0 : ToolCall)
    (e0 : Ctx → Except String (Agent × Option Ctx))
    (tl : List (ToolCall × (Ctx → Except String (Agent × Option Ctx))))
    (newAg : Agent) (patch : Option Ctx)
    (hno : anyUnknownTool ag r = false)
    (hcand : handoverCandidates ag r = (c0, e0) :: tl)
    (hall : (handoverCandidates ag r).map Prod.fst = unhandledCalls r)
    (hexec : e0 (handoverExecArgs c0 ctx) = Except.ok (newAg, patch))
    (hparts : partsCallIds parts = r.toolCalls.map ToolCall.toolCallId)
    (htrs : match trsOpt with
            | none => r.toolResults = []
            | some x => x.2.map ToolResultPart.toolCallId = resultIds r) :
    processHandover ag ctx
        (pre ++ SwarmMessage.assistant s (AssistantContent.parts parts) ::
          turnTail trsOpt) r =
      Except.ok (newAg, applyPatch ctx patch,
        turnRespOut pre s ((c0, e0) :: tl) parts trsOpt
          (mkSynthPlain c0 ag newAg)) ∧
    (∀ cid ∈ partsCallIds (prunedTurnParts ((c0, e0) :: tl) parts),
      cid ∈ collectResultIds (turnRespOut pre s ((c0, e0) :: tl) parts trsOpt
        (mkSynthPlain c0 ag newAg))) ∧
    (∀ cid ∈ unusedCallIds ((c0, e0) :: tl),
      cid ∉ partsCallIds (prunedTurnParts ((c0, e0) :: tl) parts)) := by
  refine ⟨?_, ?_, ?_⟩
  · simp only [processHandover, processHandoverCore, hno, Bool.false_eq_true,
      if_false, hcand]
    simp only [handoverStep, hexec]
    cases trsOpt with
    | none =>
      simp only [turnTail]
      rw [asstIndex?_no_tool]
      dsimp only
      rw [show spliceOpt
          (pre ++ [SwarmMessage.assistant s (AssistantContent.parts parts)])
          (some (mkSynthPlain c0 ag newAg)) =
        spliceHandoverResult
          (pre ++ [SwarmMessage.assistant s (AssistantContent.parts parts)])
          (mkSynthPlain c0 ag newAg) from rfl]
      rw [splice_no_tool]
      rw [modifyNth_append]
      simp [turnRespOut, prunedTurnParts, turnToolMessageOut, pruneUnused]
    | some x =>
      obtain ⟨st, trs⟩ := x
      simp only [turnTail]
      rw [asstIndex?_with_tool]
      dsimp only
      rw [show spliceOpt
          (pre ++ [SwarmMessage.assistant s (AssistantContent.parts parts),
            SwarmMessage.tool st trs])
          (some (mkSynthPlain c0 ag newAg)) =
        spliceHandoverResult
          (pre ++ [SwarmMessage.assistant s (AssistantContent.parts parts),
            SwarmMessage.tool st trs])
          (mkSynthPlain c0 ag newAg) from rfl]
      rw [splice_with_tool]
      rw [modifyNth_append]
      simp [turnRespOut, prunedTurnParts, turnToolMessageOut, pruneUnused]
  · intro cid hcid
    simp only [prunedTurnParts] at hcid
    rw [mem_partsCallIds_filter] at hcid
    obtain ⟨hmem, hnotun⟩ := hcid
    rw [hparts] at hmem
    obtain ⟨c, hcmem, hcid_eq⟩ := List.mem_map.mp hmem
    rw [← hcid_eq]
    rw [show turnRespOut pre s ((c0, e0) :: tl) parts trsOpt
        (mkSynthPlain c0 ag newAg) =
      (pre ++ [SwarmMessage.assistant s
        (AssistantContent.parts (prunedTurnParts ((c0, e0) :: tl) parts))]) ++
        [turnToolMessageOut trsOpt (mkSynthPlain c0 ag newAg)] from rfl]
    rw [collectResultIds_append]
    apply List.mem_append_right
    by_cases hr : c.toolCallId ∈ resultIds r
    · cases trsOpt with
      | none =>
        have hres : resultIds r = [] := by
          rw [resultIds, htrs]
          rfl
        rw [hres] at hr
        exact absurd hr (List.not_mem_nil _)
      | some x =>
        obtain ⟨st, trs⟩ := x
        rw [← htrs] at hr
        simp only [turnToolMessageOut, collectResultIds, List.map_append]
        rw [List.append_nil]
        exact List.mem_append_left _ hr
    · have hcun : c ∈ unhandledCalls r := mem_unhandledCalls.mpr ⟨hcmem, hr⟩
      rw [← hall] at hcun
      obtain ⟨p, hpmem, hpeq⟩ := List.mem_map.mp hcun
      rw [hcand] at hpmem
      rcases List.mem_cons.mp hpmem with hp0 | hptl
      · have hcc : c.toolCallId = c0.toolCallId := by
          rw [← hpeq, hp0]
        rw [hcc]
        cases trsOpt with
        | none =>
          simp [turnToolMessageOut, collectResultIds, mkSynthPlain]
        | some x =>
          obtain ⟨st, trs⟩ := x
          simp [turnToolMessageOut, collectResultIds, mkSynthPlain]
      · have hcu : c.toolCallId ∈ unusedCallIds ((c0, e0) :: tl) := by
          rw [unusedCallIds]
          exact List.mem_map.mpr ⟨p, hptl, by rw [hpeq]⟩
        exact absurd (hcid_eq ▸ hcu) hnotun
  · intro cid hun hcontra
    simp only [prunedTurnParts] at hcontra
    rw [mem_partsCallIds_filter] at hcontra
    exact hcontra.2 hun

/-- Witness for C1: a turn with TWO unhandled handover calls.  The first is
executed (agent becomes B), the record gains the synthesized result for
`call-1`, and `call-2`'s tool-call entry is pruned from the assistant
message. -/
theorem c1_first_handover_witness :
    anyUnknownTool wQueenA wTwoHandoverR = false ∧
    handoverCandidates wQueenA wTwoHandoverR = c1Candidates ∧
    (handoverCandidates wQueenA wTwoHandoverR).map Prod.fst =
      unhandledCalls wTwoHandoverR ∧
    transferToBExec (handoverExecArgs wCall1 []) = Except.ok (wAgentB, none) ∧
    partsCallIds c1Parts = wTwoHandoverR.toolCalls.map ToolCall.toolCallId ∧
    wTwoHandoverR.toolResults = [] ∧
    processHandover wQueenA []
        ([] ++ SwarmMessage.assistant (some "A") (AssistantContent.parts c1Parts) ::
          turnTail none) wTwoHandoverR =
      Except.ok (wAgentB, applyPatch [] none,
        turnRespOut [] (some "A") c1Candidates c1Parts none
          (mkSynthPlain wCall1 wQueenA wAgentB)) ∧
    "call-2" ∈ unusedCallIds c1Candidates ∧
    "call-2" ∉ partsCallIds (prunedTurnParts c1Candidates c1Parts) :=
  ⟨rfl, rfl, rfl, rfl, rfl, rfl,
   (c1_first_handover_honored wQueenA [] [] (some "A") c1Parts none wTwoHandoverR
      wCall1 transferToBExec [(wCall2, transferToBExec)] wAgentB none
      rfl rfl rfl rfl rfl rfl).1,
   List.mem_singleton.mpr rfl,
   (c1_first_handover_honored wQueenA [] [] (some "A") c1Parts none wTwoHandoverR
      wCall1 transferToBExec [(wCall2, transferToBExec)] wAgentB none
      rfl rfl rfl rfl rfl rfl).2.2 "call-2" (List.mem_singleton.mpr rfl)⟩

end SwarmSpec
